import Mathlib

/-!
Verification development for the AI_Domain_Agnostic_Crawler_Schema repository.

The Python sources (`storage.py`, `schema_mapper.py`, `llm_client.py`,
`rag.py`, `main.py`) are shallowly embedded below:

* Pure helpers become Lean functions over `String`, `List` and `ℚ`.
* The PostgreSQL table and the Qdrant collection become explicit in-memory
  states (`StoreState`), with the SQL `ON CONFLICT` upsert and the Qdrant
  point upsert modelled directly.
* Python exceptions become `Except`/`Option` values; external collaborators
  (the embedding model, the two LLM backends, `json.loads`, Python `hash`)
  become function parameters, since they are libraries or services outside
  this repository.
* NumPy floating point is idealised as exact arithmetic: a cosine
  similarity `dot/(‖a‖·‖b‖)` is represented by the pair
  `⟨dot a b, sumsq a * sumsq b⟩` (the value is `num / √denSq`), and the
  float comparison `similarity > max` is the exact comparison `simGt`.
  A zero denominator corresponds to NumPy producing NaN (never an
  exception), and NaN compares false against everything, which `simGt`
  reproduces by returning `false` whenever a denominator is zero.
-/

/-- JSON values as produced by `json.loads` (numbers idealised as `Int`). -/
inductive Json where
  | null : Json
  | bool : Bool → Json
  | num : Int → Json
  | str : String → Json
  | arr : List Json → Json
  | obj : List (String × Json) → Json
deriving Repr, BEq

/-- Python dict lookup `d[k]` / `d.get(k)` on an insertion-ordered dict. -/
def lookupKey : List (String × Json) → String → Option Json
  | [], _ => none
  | (k0, v0) :: rest, k => if k0 == k then some v0 else lookupKey rest k

/-- Python dict assignment `d[k] = v`: replace in place if the key exists,
append otherwise. -/
def setKey : List (String × Json) → String → Json → List (String × Json)
  | [], k, v => [(k, v)]
  | (k0, v0) :: rest, k, v =>
      if k0 == k then (k0, v) :: rest else (k0, v0) :: setKey rest k v

theorem lookupKey_setKey_self (l : List (String × Json)) (k : String) (v : Json) :
    lookupKey (setKey l k v) k = some v := by
  induction l with
  | nil => simp [setKey, lookupKey]
  | cons hd tl ih =>
      obtain ⟨k0, v0⟩ := hd
      by_cases h : k0 == k
      · simp [setKey, lookupKey, h]
      · simp [setKey, lookupKey, h, ih]

theorem lookupKey_setKey_ne (l : List (String × Json)) (k k1 : String) (v : Json)
    (h : (k1 == k) = false) : lookupKey (setKey l k v) k1 = lookupKey l k1 := by
  have hne : (k == k1) = false := by
    rw [beq_eq_false_iff_ne] at h ⊢
    exact fun he => h he.symm
  induction l with
  | nil => simp [setKey, lookupKey, hne]
  | cons hd tl ih =>
      obtain ⟨k0, v0⟩ := hd
      by_cases h0 : k0 == k
      · have hk0 : k0 = k := by rwa [beq_iff_eq] at h0
        subst hk0
        simp [setKey, lookupKey, hne, h0]
      · simp only [setKey, h0, if_false, lookupKey, ih]

/-! ## Embedding vectors and cosine similarity (`schema_mapper.py`) -/

/-- Embedding vectors, idealised over `ℚ`. -/
abbrev Vec := List ℚ

/-- `np.dot` on (possibly truncated) vectors. -/
def dot : Vec → Vec → ℚ
  | [], _ => 0
  | _, [] => 0
  | x :: xs, y :: ys => x * y + dot xs ys

/-- Squared Euclidean norm, `np.linalg.norm(v) ** 2`. -/
def sumsq (v : Vec) : ℚ := dot v v

/-- Exact representation of the float
`np.dot(a, b) / (np.linalg.norm(a) * np.linalg.norm(b))`:
the value is `num / √denSq`; `denSq = 0` represents NaN. -/
structure Sim where
  num : ℚ
  denSq : ℚ
deriving Repr, DecidableEq

/-- The cosine similarity from `classify_industry`/`detect_schema_type`
(lines 73-75 and 92-94 of `schema_mapper.py`). -/
def cosineSim (a b : Vec) : Sim := ⟨dot a b, sumsq a * sumsq b⟩

/-- The Python literal `0` that initialises `max_similarity`. -/
def simZero : Sim := ⟨0, 1⟩

/-- Exact rendering of the float comparison `similarity > max_similarity`
for `x = x.num / √x.denSq` and `y = y.num / √y.denSq` (denominators
nonnegative). A zero denominator is NaN, and NaN comparisons are false. -/
def simGt (x y : Sim) : Bool :=
  if x.denSq = 0 ∨ y.denSq = 0 then false
  else if 0 ≤ y.num then
    decide (0 < x.num) && decide (y.num ^ 2 * x.denSq < x.num ^ 2 * y.denSq)
  else
    decide (0 ≤ x.num) || decide (x.num ^ 2 * y.denSq < y.num ^ 2 * x.denSq)

theorem sumsq_nonneg (v : Vec) : 0 ≤ sumsq v := by
  induction v with
  | nil => simp [sumsq, dot]
  | cons x xs ih =>
      have : sumsq (x :: xs) = x * x + sumsq xs := rfl
      rw [this]
      nlinarith [ih, sq_nonneg x]

theorem cosineSim_denSq_nonneg (a b : Vec) : 0 ≤ (cosineSim a b).denSq :=
  mul_nonneg (sumsq_nonneg a) (sumsq_nonneg b)

theorem simGt_irrefl (x : Sim) : simGt x x = false := by
  unfold simGt
  by_cases h : x.denSq = 0 ∨ x.denSq = 0
  · simp [h]
  · have hlt : ¬ (x.num ^ 2 * x.denSq < x.num ^ 2 * x.denSq) := lt_irrefl _
    by_cases h2 : 0 ≤ x.num
    · simp [h, h2, hlt]
    · simp [h, h2, hlt]

theorem simGt_denSq_ne (x y : Sim) (h : simGt x y = true) :
    x.denSq ≠ 0 ∧ y.denSq ≠ 0 := by
  unfold simGt at h
  by_cases h0 : x.denSq = 0 ∨ y.denSq = 0
  · simp [h0] at h
  · push_neg at h0
    exact h0

theorem simGt_num_pos (x y : Sim) (hy : 0 ≤ y.num) (h : simGt x y = true) :
    0 < x.num := by
  unfold simGt at h
  by_cases h0 : x.denSq = 0 ∨ y.denSq = 0
  · simp [h0] at h
  · simp [h0, hy] at h
    exact h.1

theorem simGt_trans (a b c : Sim) (ha : 0 ≤ a.denSq) (hb : 0 ≤ b.denSq)
    (hc : 0 ≤ c.denSq) (h1 : simGt a b = true) (h2 : simGt b c = true) :
    simGt a c = true := by
  obtain ⟨hda, hdb⟩ := simGt_denSq_ne a b h1
  obtain ⟨_, hdc⟩ := simGt_denSq_ne b c h2
  have hda' : 0 < a.denSq := lt_of_le_of_ne ha (Ne.symm hda)
  have hdb' : 0 < b.denSq := lt_of_le_of_ne hb (Ne.symm hdb)
  have hdc' : 0 < c.denSq := lt_of_le_of_ne hc (Ne.symm hdc)
  unfold simGt at h1 h2 ⊢
  have hnd : ¬ (a.denSq = 0 ∨ c.denSq = 0) := by push_neg; exact ⟨hda, hdc⟩
  have hnd1 : ¬ (a.denSq = 0 ∨ b.denSq = 0) := by push_neg; exact ⟨hda, hdb⟩
  have hnd2 : ¬ (b.denSq = 0 ∨ c.denSq = 0) := by push_neg; exact ⟨hdb, hdc⟩
  rw [if_neg hnd1] at h1
  rw [if_neg hnd2] at h2
  rw [if_neg hnd]
  by_cases hcnum : 0 ≤ c.num
  · -- c nonnegative forces b, then a, positive
    rw [if_pos hcnum] at h2
    rw [Bool.and_eq_true, decide_eq_true_eq, decide_eq_true_eq] at h2
    obtain ⟨hbpos, hbc⟩ := h2
    have hbnum : 0 ≤ b.num := le_of_lt hbpos
    rw [if_pos hbnum] at h1
    rw [Bool.and_eq_true, decide_eq_true_eq, decide_eq_true_eq] at h1
    obtain ⟨hapos, hab⟩ := h1
    rw [if_pos hcnum, Bool.and_eq_true, decide_eq_true_eq, decide_eq_true_eq]
    refine ⟨hapos, ?_⟩
    have k1 : c.num ^ 2 * b.denSq * (b.num ^ 2 * a.denSq)
        < b.num ^ 2 * c.denSq * (a.num ^ 2 * b.denSq) :=
      mul_lt_mul'' hbc hab (by positivity) (by positivity)
    have key : c.num ^ 2 * a.denSq * (b.num ^ 2 * b.denSq)
        < a.num ^ 2 * c.denSq * (b.num ^ 2 * b.denSq) := by nlinarith [k1]
    have hpos : 0 < b.num ^ 2 * b.denSq := mul_pos (pow_pos hbpos 2) hdb'
    exact lt_of_mul_lt_mul_right key (le_of_lt hpos)
  · -- c negative
    rw [if_neg hcnum] at h2
    rw [if_neg hcnum]
    rw [Bool.or_eq_true, decide_eq_true_eq, decide_eq_true_eq] at h2
    by_cases hbnum : 0 ≤ b.num
    · -- b nonnegative: a is positive from h1
      rw [if_pos hbnum, Bool.and_eq_true, decide_eq_true_eq,
        decide_eq_true_eq] at h1
      rw [Bool.or_eq_true, decide_eq_true_eq, decide_eq_true_eq]
      exact Or.inl (le_of_lt h1.1)
    · push_neg at hbnum
      have hbc : b.num ^ 2 * c.denSq < c.num ^ 2 * b.denSq := by
        rcases h2 with h2 | h2
        · exact absurd h2 (not_le.mpr hbnum)
        · exact h2
      rw [if_neg (not_le.mpr hbnum), Bool.or_eq_true, decide_eq_true_eq,
        decide_eq_true_eq] at h1
      rw [Bool.or_eq_true, decide_eq_true_eq, decide_eq_true_eq]
      rcases h1 with h1 | h1
      · exact Or.inl h1
      · refine Or.inr ?_
        have hbsq : (0 : ℚ) < b.num ^ 2 := by nlinarith [hbnum]
        have hpos : 0 < b.num ^ 2 * b.denSq := mul_pos hbsq hdb'
        have k1 : a.num ^ 2 * b.denSq * (b.num ^ 2 * c.denSq)
            < b.num ^ 2 * a.denSq * (c.num ^ 2 * b.denSq) :=
          mul_lt_mul'' h1 hbc (by positivity) (by positivity)
        have key : a.num ^ 2 * c.denSq * (b.num ^ 2 * b.denSq)
            < c.num ^ 2 * a.denSq * (b.num ^ 2 * b.denSq) := by nlinarith [k1]
        exact lt_of_mul_lt_mul_right key (le_of_lt hpos)

/-- The Python slice `s[:n]` (first `n` characters). -/
def pyTake (s : String) (n : Nat) : String := ⟨s.data.take n⟩

/-! ## `SchemaMapper` classification (`schema_mapper.py`, lines 14-99) -/

/-- `SchemaMapper.SCHEMA_TYPES` (lines 14-19). -/
def SCHEMA_TYPES : List (String × List String) :=
  [("banking", ["Product", "FinancialProduct", "Service", "Offer"]),
   ("ecommerce", ["Product", "Offer", "Review", "AggregateRating"]),
   ("insurance", ["Service", "Product", "Offer", "InsuranceAgency"]),
   ("general", ["Product", "Service", "Organization", "WebPage"])]

/-- `self.SCHEMA_TYPES.get(industry, self.SCHEMA_TYPES["general"])` (line 86). -/
def schemaTypesFor (industry : String) : List String :=
  (SCHEMA_TYPES.lookup industry).getD
    ["Product", "Service", "Organization", "WebPage"]

/-- The fixed prototype descriptions of `_precompute_schema_embeddings`
(lines 41-51). -/
def schemaDescriptions : List (String × String) :=
  [("Product", "A product available for purchase with name, price, brand, description"),
   ("FinancialProduct", "Financial products like credit cards, loans, accounts with fees, interest rates"),
   ("Service", "Services offered by organizations with pricing and terms"),
   ("Offer", "Offers, deals, promotions with prices and conditions"),
   ("Review", "Customer reviews and ratings"),
   ("AggregateRating", "Aggregated ratings and review counts"),
   ("Organization", "Company or organization information"),
   ("WebPage", "Web page content and metadata"),
   ("InsuranceAgency", "Insurance products and policies")]

/-- `_precompute_schema_embeddings` (lines 39-55): one embedding per
prototype description; the embedding model is a collaborator, passed in. -/
def precomputeSchemaEmbeddings (embed : String → Vec) : List (String × Vec) :=
  schemaDescriptions.map (fun p => (p.1, embed p.2))

/-- The `for schema_type in candidate_types` loop of `detect_schema_type`
(lines 90-97): skip candidates missing from `schema_embeddings`, replace
the running `(best_type, max_similarity)` only on a strict float `>`. -/
def detectLoop (e : Vec) (protos : List (String × Vec)) :
    List String → String × Sim → String × Sim
  | [], acc => acc
  | t :: ts, (best, m) =>
      match protos.lookup t with
      | none => detectLoop e protos ts (best, m)
      | some pe =>
          if simGt (cosineSim e pe) m then
            detectLoop e protos ts (t, cosineSim e pe)
          else
            detectLoop e protos ts (best, m)

/-- `SchemaMapper.detect_schema_type` (lines 82-99): embed the first 1000
characters, restrict candidates by industry with general fallback, start
from `best_type = "Product"`, `max_similarity = 0`. -/
def detect_schema_type (embed : String → Vec) (protos : List (String × Vec))
    (content industry : String) : String :=
  (detectLoop (embed (pyTake content 1000)) protos (schemaTypesFor industry)
    ("Product", simZero)).1

/-- `industry_keywords` of `classify_industry` (lines 61-65). -/
def industry_keywords : List (String × List String) :=
  [("banking", ["credit card", "loan", "account", "interest rate", "bank", "deposit", "withdrawal"]),
   ("ecommerce", ["product", "price", "buy", "cart", "shipping", "delivery", "review", "rating"]),
   ("insurance", ["insurance", "policy", "premium", "coverage", "claim", "motor", "health"])]

/-- The `for industry, keywords in industry_keywords.items()` loop of
`classify_industry` (lines 70-78). -/
def classifyLoop (e : Vec) (embed : String → Vec) :
    List (String × List String) → String × Sim → String × Sim
  | [], acc => acc
  | (industry, kws) :: rest, (best, m) =>
      let s := cosineSim e (embed (String.intercalate " " kws))
      if simGt s m then classifyLoop e embed rest (industry, s)
      else classifyLoop e embed rest (best, m)

/-- `SchemaMapper.classify_industry` (lines 57-80): embed the first 1000
characters, start from `best_match = "general"`, `max_similarity = 0`. -/
def classify_industry (embed : String → Vec) (content : String) : String :=
  (classifyLoop (embed (pyTake content 1000)) embed industry_keywords
    ("general", simZero)).1

theorem detectLoop_spec (e : Vec) (protos : List (String × Vec)) :
    ∀ (ts : List String) (best : String) (m : Sim), 0 ≤ m.num → 0 < m.denSq →
    (detectLoop e protos ts (best, m) = (best, m) ∨
      ((detectLoop e protos ts (best, m)).1 ∈ ts ∧
        ∃ pe, protos.lookup (detectLoop e protos ts (best, m)).1 = some pe ∧
          (detectLoop e protos ts (best, m)).2 = cosineSim e pe)) ∧
    0 ≤ (detectLoop e protos ts (best, m)).2.num ∧
    0 < (detectLoop e protos ts (best, m)).2.denSq ∧
    (∀ t ∈ ts, ∀ pe, protos.lookup t = some pe →
      simGt (cosineSim e pe) (detectLoop e protos ts (best, m)).2 = false) ∧
    (∀ x : Sim, 0 ≤ x.denSq → simGt x m = false →
      simGt x (detectLoop e protos ts (best, m)).2 = false) := by
  intro ts
  induction ts with
  | nil =>
      intro best m hm hd
      refine ⟨Or.inl rfl, hm, hd, ?_, ?_⟩
      · intro t ht; simp at ht
      · intro x _ hx; simpa [detectLoop] using hx
  | cons t ts ih =>
      intro best m hm hd
      by_cases hlk : ∃ pe, protos.lookup t = some pe
      · obtain ⟨pe, hpe⟩ := hlk
        by_cases hgt : simGt (cosineSim e pe) m = true
        · -- the head candidate strictly beats the running maximum
          have heq : detectLoop e protos (t :: ts) (best, m)
              = detectLoop e protos ts (t, cosineSim e pe) := by
            simp [detectLoop, hpe, hgt]
          have hsnum : 0 ≤ (cosineSim e pe).num :=
            le_of_lt (simGt_num_pos _ _ hm hgt)
          have hsden : 0 < (cosineSim e pe).denSq :=
            lt_of_le_of_ne (cosineSim_denSq_nonneg e pe)
              (Ne.symm (simGt_denSq_ne _ _ hgt).1)
          obtain ⟨hmem, hnum, hden, hall, hmono⟩ := ih t (cosineSim e pe) hsnum hsden
          rw [heq]
          refine ⟨?_, hnum, hden, ?_, ?_⟩
          · rcases hmem with hmem | hmem
            · exact Or.inr ⟨by rw [hmem]; exact List.mem_cons_self t ts,
                pe, by rw [hmem]; exact ⟨hpe, rfl⟩⟩
            · exact Or.inr ⟨List.mem_cons_of_mem t hmem.1, hmem.2⟩
          · intro t0 ht0 pe0 hpe0
            rcases List.mem_cons.mp ht0 with ht0 | ht0
            · subst ht0
              have : pe0 = pe := by rw [hpe0] at hpe; exact Option.some_inj.mp hpe
              subst this
              exact hmono _ (cosineSim_denSq_nonneg e pe0) (simGt_irrefl _)
            · exact hall t0 ht0 pe0 hpe0
          · intro x hx hxm
            refine hmono x hx ?_
            cases hxs : simGt x (cosineSim e pe)
            · rfl
            · exact absurd (simGt_trans x (cosineSim e pe) m hx
                (cosineSim_denSq_nonneg e pe) (le_of_lt hd) hxs hgt)
                (by rw [hxm]; exact Bool.false_ne_true)
        · -- the head candidate does not beat the running maximum
          have hgt' : simGt (cosineSim e pe) m = false := by
            cases h : simGt (cosineSim e pe) m
            · rfl
            · exact absurd h hgt
          have heq : detectLoop e protos (t :: ts) (best, m)
              = detectLoop e protos ts (best, m) := by
            simp [detectLoop, hpe, hgt']
          obtain ⟨hmem, hnum, hden, hall, hmono⟩ := ih best m hm hd
          rw [heq]
          refine ⟨?_, hnum, hden, ?_, hmono⟩
          · rcases hmem with hmem | hmem
            · exact Or.inl hmem
            · exact Or.inr ⟨List.mem_cons_of_mem t hmem.1, hmem.2⟩
          · intro t0 ht0 pe0 hpe0
            rcases List.mem_cons.mp ht0 with ht0 | ht0
            · subst ht0
              have : pe0 = pe := by rw [hpe0] at hpe; exact Option.some_inj.mp hpe
              subst this
              exact hmono _ (cosineSim_denSq_nonneg e pe0) hgt'
            · exact hall t0 ht0 pe0 hpe0
      · -- the head candidate has no prototype embedding: skipped
        have hnone : protos.lookup t = none := by
          cases h : protos.lookup t
          · rfl
          · exact absurd ⟨_, h⟩ hlk
        have heq : detectLoop e protos (t :: ts) (best, m)
            = detectLoop e protos ts (best, m) := by
          simp [detectLoop, hnone]
        obtain ⟨hmem, hnum, hden, hall, hmono⟩ := ih best m hm hd
        rw [heq]
        refine ⟨?_, hnum, hden, ?_, hmono⟩
        · rcases hmem with hmem | hmem
          · exact Or.inl hmem
          · exact Or.inr ⟨List.mem_cons_of_mem t hmem.1, hmem.2⟩
        · intro t0 ht0 pe0 hpe0
          rcases List.mem_cons.mp ht0 with ht0 | ht0
          · subst ht0
            rw [hnone] at hpe0
            exact absurd hpe0 (Option.noConfusion)
          · exact hall t0 ht0 pe0 hpe0

theorem simGt_denSq_zero_left (x y : Sim) (h : x.denSq = 0) :
    simGt x y = false := by
  unfold simGt
  rw [if_pos (Or.inl h)]

theorem detectLoop_zero (e : Vec) (protos : List (String × Vec))
    (he : sumsq e = 0) :
    ∀ (ts : List String) (acc : String × Sim), detectLoop e protos ts acc = acc := by
  intro ts
  induction ts with
  | nil => intro acc; rfl
  | cons t ts ih =>
      intro acc
      obtain ⟨best, m⟩ := acc
      cases hlk : protos.lookup t with
      | none => simp [detectLoop, hlk, ih]
      | some pe =>
          have hz : simGt (cosineSim e pe) m = false :=
            simGt_denSq_zero_left _ _ (by simp [cosineSim, he])
          simp [detectLoop, hlk, hz, ih]

theorem classifyLoop_zero (e : Vec) (embed : String → Vec)
    (he : sumsq e = 0) :
    ∀ (l : List (String × List String)) (acc : String × Sim),
      classifyLoop e embed l acc = acc := by
  intro l
  induction l with
  | nil => intro acc; rfl
  | cons p rest ih =>
      intro acc
      obtain ⟨industry, kws⟩ := p
      obtain ⟨best, m⟩ := acc
      have hz : simGt (cosineSim e (embed (String.intercalate " " kws))) m
          = false := simGt_denSq_zero_left _ _ (by simp [cosineSim, he])
      simp [classifyLoop, hz, ih]

/-- C5: the cosine-similarity computation of `classify_industry` and
`detect_schema_type` is total on zero vectors: a zero input embedding makes
the denominator `‖a‖·‖b‖` zero, NumPy yields NaN rather than raising, the
strict comparison against the (nonnegative) running maximum is false —
exactly as if the similarity were the literal `0` — and both classifiers
fall through to their defaults. -/
theorem cosine_zero_vector_total (a b : Vec) (h : sumsq a = 0 ∨ sumsq b = 0)
    (m : Sim) (hm : 0 ≤ m.num) (embed : String → Vec) (content : String)
    (protos : List (String × Vec)) (industry : String)
    (he : sumsq (embed (pyTake content 1000)) = 0) :
    simGt (cosineSim a b) m = false
    ∧ simGt (cosineSim a b) m = simGt simZero m
    ∧ classify_industry embed content = "general"
    ∧ detect_schema_type embed protos content industry = "Product" := by
  have hden : (cosineSim a b).denSq = 0 := by
    rcases h with h | h <;> simp [cosineSim, h]
  have h1 : simGt (cosineSim a b) m = false := simGt_denSq_zero_left _ _ hden
  have h2 : simGt simZero m = false := by
    unfold simGt
    by_cases hd : simZero.denSq = 0 ∨ m.denSq = 0
    · rw [if_pos hd]
    · rw [if_neg hd, if_pos hm]
      simp [simZero]
  refine ⟨h1, by rw [h1, h2], ?_, ?_⟩
  · unfold classify_industry
    rw [classifyLoop_zero _ _ he]
  · unfold detect_schema_type
    rw [detectLoop_zero _ _ he]

/-- Witness for C5 at a concrete zero embedding. -/
theorem cosine_zero_vector_total_witness :
    (sumsq ([0] : Vec) = 0 ∨ sumsq ([1] : Vec) = 0) ∧ (0 : ℚ) ≤ simZero.num
    ∧ sumsq ((fun _ : String => ([0] : Vec)) (pyTake "doc" 1000)) = 0
    ∧ (simGt (cosineSim [0] [1]) simZero = false
       ∧ simGt (cosineSim [0] [1]) simZero = simGt simZero simZero
       ∧ classify_industry (fun _ => [0]) "doc" = "general"
       ∧ detect_schema_type (fun _ => [0]) [] "doc" "banking" = "Product") :=
  ⟨Or.inl (by norm_num [sumsq, dot]), by norm_num [simZero],
   by norm_num [sumsq, dot],
   cosine_zero_vector_total [0] [1] (Or.inl (by norm_num [sumsq, dot]))
     simZero (by norm_num [simZero]) (fun _ => [0]) "doc" [] "banking"
     (by norm_num [sumsq, dot])⟩

/-- C6 (amended): `detect_schema_type` restricts candidates to the types
registered for the industry (falling back to the `general` subset), and
returns a candidate whose prototype similarity no candidate strictly
exceeds; when no candidate strictly beats the running maximum the result
is the fixed default `"Product"` (which is not always the first element of
the candidate list — see the counterexample below). -/
theorem detect_schema_type_spec (embed : String → Vec)
    (protos : List (String × Vec)) (content industry : String) :
    detect_schema_type embed protos content industry
      = (detectLoop (embed (pyTake content 1000)) protos
          (schemaTypesFor industry) ("Product", simZero)).1
    ∧ (∀ t ∈ schemaTypesFor industry, ∀ pe, protos.lookup t = some pe →
        simGt (cosineSim (embed (pyTake content 1000)) pe)
          (detectLoop (embed (pyTake content 1000)) protos
            (schemaTypesFor industry) ("Product", simZero)).2 = false)
    ∧ (detectLoop (embed (pyTake content 1000)) protos (schemaTypesFor industry)
          ("Product", simZero) = ("Product", simZero)
       ∨ ((detectLoop (embed (pyTake content 1000)) protos
            (schemaTypesFor industry) ("Product", simZero)).1
              ∈ schemaTypesFor industry
          ∧ ∃ pe, protos.lookup (detectLoop (embed (pyTake content 1000)) protos
                (schemaTypesFor industry) ("Product", simZero)).1 = some pe
              ∧ (detectLoop (embed (pyTake content 1000)) protos
                  (schemaTypesFor industry) ("Product", simZero)).2
                = cosineSim (embed (pyTake content 1000)) pe)) := by
  obtain ⟨hmem, _, _, hall, _⟩ :=
    detectLoop_spec (embed (pyTake content 1000)) protos (schemaTypesFor industry)
      "Product" simZero (by norm_num [simZero]) (by norm_num [simZero])
  exact ⟨rfl, hall, hmem⟩

/-- A concrete embedder for the C6 counterexample: the document embeds to
`[1]`, every prototype description embeds to `[-1]`, so every candidate
similarity is `-1` and never strictly exceeds the running maximum `0`. -/
def embedCE : String → Vec := fun s => if s == "x" then [1] else [-1]

/-- C6 counterexample: for `industry = "insurance"` no candidate similarity
strictly exceeds the running maximum, yet the code returns the hardcoded
default `"Product"`, not the first element `"Service"` of the
insurance-filtered candidate list as the claim states. -/
theorem detect_schema_type_insurance_default :
    detect_schema_type embedCE (precomputeSchemaEmbeddings embedCE)
      "x" "insurance" = "Product"
    ∧ ((schemaTypesFor "insurance").all (fun t =>
        match (precomputeSchemaEmbeddings embedCE).lookup t with
        | some pe =>
            !(simGt (cosineSim (embedCE (pyTake "x" 1000)) pe) simZero)
        | none => true)) = true
    ∧ (schemaTypesFor "insurance").head? = some "Service"
    ∧ ("Product" : String) ≠ "Service" := by
  have hproto : precomputeSchemaEmbeddings embedCE =
      [("Product", [-1]), ("FinancialProduct", [-1]), ("Service", [-1]),
       ("Offer", [-1]), ("Review", [-1]), ("AggregateRating", [-1]),
       ("Organization", [-1]), ("WebPage", [-1]), ("InsuranceAgency", [-1])] := by
    simp [precomputeSchemaEmbeddings, schemaDescriptions, embedCE]
  have hxs : pyTake "x" 1000 = "x" := by decide
  have hx : embedCE (pyTake "x" 1000) = [1] := by rw [hxs]; simp [embedCE]
  have hsim : simGt (cosineSim [1] [-1]) simZero = false := by
    norm_num [simGt, cosineSim, simZero, sumsq, dot]
  have hcand : schemaTypesFor "insurance"
      = ["Service", "Product", "Offer", "InsuranceAgency"] := by
    simp [schemaTypesFor, SCHEMA_TYPES, List.lookup]
  refine ⟨?_, ?_, by rw [hcand]; rfl, by decide⟩
  · simp only [detect_schema_type, hproto, hx, hcand]
    simp [detectLoop, List.lookup, hsim]
  · simp only [hproto, hx, hcand]
    simp [List.all, List.lookup, hsim]

/-! ## `StorageManager` (`storage.py`) -/

/-- One row of the `crawled_pages` table (schema at lines 54-67 of
`storage.py`); `extracted_data`/`metadata` hold the `json.dumps` images,
timestamps are idealised as `Nat` ticks. -/
structure PageRow where
  id : String
  url : String
  title : String
  description : String
  industry : String
  schema_type : String
  extracted_data : String
  metadata : String
  created_at : Nat
  updated_at : Nat
deriving Repr, DecidableEq

/-- The payload stored with each Qdrant point (lines 202-208). -/
structure VectorPayload where
  url : String
  title : String
  industry : String
  schema_type : String
  page_id : String
deriving Repr, DecidableEq

/-- Dual-store state: the `crawled_pages` table and the Qdrant collection
(point id, vector, payload). -/
structure StoreState where
  pages : List PageRow
  points : List (Int × Vec × VectorPayload)
deriving Repr

/-- Arguments of `save_crawled_data` other than `url`-independent context;
the two dict arguments appear as their (deterministic) `json.dumps` images. -/
structure SaveArgs where
  url : String
  title : String
  description : String
  industry : String
  schema_type : String
  extracted_data : String
  metadata : String
deriving Repr, DecidableEq

/-- The `INSERT ... ON CONFLICT (url) DO UPDATE` of lines 166-187: on a url
conflict every listed column is overwritten and `updated_at` refreshed, but
`id` (and `created_at`) keep their stored values. -/
def upsertPage (pages : List PageRow) (row : PageRow) : List PageRow :=
  if pages.any (fun p => p.url == row.url) then
    pages.map (fun p =>
      if p.url == row.url then { row with id := p.id, created_at := p.created_at }
      else p)
  else pages ++ [row]

/-- The Qdrant `upsert` of lines 210-219: replaces the point with the same
id if present, inserts otherwise. -/
def upsertPoint (pts : List (Int × Vec × VectorPayload)) (k : Int) (v : Vec)
    (pl : VectorPayload) : List (Int × Vec × VectorPayload) :=
  if pts.any (fun q => q.1 == k) then
    pts.map (fun q => if q.1 == k then (k, v, pl) else q)
  else pts ++ [(k, v, pl)]

/-- `StorageManager.save_crawled_data` (lines 147-223). `h` models Python
`hash` on strings, `embed` the sentence-transformer, `now` the database
clock, `freshId` the `uuid.uuid4()` drawn at line 159, and
`pgFail`/`vecFail` whether the PostgreSQL / Qdrant writes raise. A
PostgreSQL failure is caught and returns `None` with nothing committed; a
Qdrant failure is caught and ignored after the committed relational write;
the function always returns the *fresh* uuid, and always stores it in the
vector payload (line 207), even when the `ON CONFLICT` branch kept the
previously stored `id`. -/
def save_crawled_data (h : String → Int) (embed : String → Vec) (now : Nat)
    (freshId : String) (pgFail vecFail : Bool) (st : StoreState)
    (a : SaveArgs) (text_content : String) : Option String × StoreState :=
  let page_id := freshId
  if pgFail then (none, st)
  else
    let row : PageRow :=
      { id := page_id, url := a.url, title := a.title,
        description := a.description, industry := a.industry,
        schema_type := a.schema_type, extracted_data := a.extracted_data,
        metadata := a.metadata, created_at := now, updated_at := now }
    let st1 : StoreState := { st with pages := upsertPage st.pages row }
    if vecFail then (some page_id, st1)
    else
      let payload : VectorPayload :=
        { url := a.url, title := a.title, industry := a.industry,
          schema_type := a.schema_type, page_id := page_id }
      (some page_id,
        { st1 with
            points := upsertPoint st1.points (h a.url % (2 : Int) ^ 63)
              (embed (pyTake text_content 1000)) payload })

/-- `StorageManager.get_by_url` (lines 225-248): the whole body sits in a
`try`; any storage exception is caught and `None` returned, and a missing
row also returns `None`. `dbResult` is the outcome of the `SELECT` block. -/
def get_by_url (dbResult : Except String (Option PageRow)) : Option PageRow :=
  match dbResult with
  | .error _ => none
  | .ok r => r

/-- The `force_refresh` short-circuit of `crawl_url` (`main.py` lines
145-157): skip the crawl iff `force_refresh` is false and `get_by_url`
returned a record. -/
def ingestShortCircuit (force_refresh : Bool) (existing : Option PageRow) : Bool :=
  !force_refresh && existing.isSome

/-- The empty dual store. -/
def stEmpty : StoreState := ⟨[], []⟩

/-- Concrete arguments for the repeated-save scenario. -/
def argsCE : SaveArgs :=
  { url := "https://example.com/p", title := "T", description := "D",
    industry := "banking", schema_type := "Product",
    extracted_data := "ed", metadata := "md" }

/-- `save_crawled_data` applied at the concrete scenario inputs: trivial
hash and embedder, no storage failures, arguments `argsCE`. -/
def saveCE (now : Nat) (freshId : String) (st : StoreState) :
    Option String × StoreState :=
  save_crawled_data (fun _ => 0) (fun _ => []) now freshId false false st
    argsCE "text"

/-- C1: saving the same URL twice (fresh uuids `id1`, then `id2`) leaves
exactly one Page row and one vector point, but the Page keeps `id = id1`
while the vector payload carries `page_id = id2`: the claimed invariant
`payload.page_id = Page.id` is violated after the second save. -/
theorem save_twice_vector_page_id_mismatch :
    ((saveCE 1 "id2" (saveCE 0 "id1" stEmpty).2).2.pages.map
        (fun p => (p.url, p.id)) = [(argsCE.url, "id1")])
    ∧ ((saveCE 1 "id2" (saveCE 0 "id1" stEmpty).2).2.points.map
        (fun q => q.2.2.page_id) = ["id2"])
    ∧ (saveCE 1 "id2" (saveCE 0 "id1" stEmpty).2).2.pages.length = 1
    ∧ (saveCE 1 "id2" (saveCE 0 "id1" stEmpty).2).2.points.length = 1
    ∧ ("id1" : String) ≠ "id2" := by
  refine ⟨?_, ?_, ?_, ?_, by decide⟩ <;>
    simp [saveCE, save_crawled_data, upsertPage, upsertPoint, argsCE,
      stEmpty, pyTake]

/-- C2: both calls report success, but the second call returns the fresh
uuid `id2`, not the `id1` returned by the first call (and still stored in
the Page row); the non-timestamp columns of the stored Page are unchanged
by the repeated identical save. -/
theorem save_twice_returns_distinct_ids :
    (saveCE 0 "id1" stEmpty).1 = some "id1"
    ∧ (saveCE 1 "id2" (saveCE 0 "id1" stEmpty).2).1 = some "id2"
    ∧ (saveCE 1 "id2" (saveCE 0 "id1" stEmpty).2).1 ≠ (saveCE 0 "id1" stEmpty).1
    ∧ ((saveCE 1 "id2" (saveCE 0 "id1" stEmpty).2).2.pages.map
        (fun p => (p.id, p.url, p.title, p.description, p.industry,
          p.schema_type, p.extracted_data, p.metadata))
      = (saveCE 0 "id1" stEmpty).2.pages.map
        (fun p => (p.id, p.url, p.title, p.description, p.industry,
          p.schema_type, p.extracted_data, p.metadata))) := by
  refine ⟨?_, ?_, ?_, ?_⟩ <;>
    simp [saveCE, save_crawled_data, upsertPage, upsertPoint, argsCE,
      stEmpty, pyTake]

/-- C3: a Qdrant (vector) failure is swallowed — the function still returns
the page id of the committed relational write, the vector index is
untouched, and the relational state is exactly what a fully successful save
would produce; a PostgreSQL (canonical) failure returns `none` and leaves
the whole state unchanged, so no vector write is attempted. -/
theorem save_failure_handling (h : String → Int) (embed : String → Vec)
    (now : Nat) (freshId : String) (vf : Bool) (st : StoreState)
    (a : SaveArgs) (txt : String) :
    (save_crawled_data h embed now freshId false true st a txt).1 = some freshId
    ∧ (save_crawled_data h embed now freshId false true st a txt).2.points
        = st.points
    ∧ (save_crawled_data h embed now freshId false true st a txt).2.pages
        = (save_crawled_data h embed now freshId false false st a txt).2.pages
    ∧ (save_crawled_data h embed now freshId true vf st a txt).1 = none
    ∧ (save_crawled_data h embed now freshId true vf st a txt).2 = st := by
  refine ⟨rfl, rfl, ?_, rfl, rfl⟩
  simp [save_crawled_data]

/-- C10: `get_by_url` is total — it returns the stored record or `none`,
with `none` both for an absent row and for a storage error, so those two
outcomes are indistinguishable to callers, including the
`force_refresh=false` ingest short-circuit of `crawl_url`. -/
theorem get_by_url_total (e : String) (r : PageRow) :
    get_by_url (.error e) = none
    ∧ get_by_url (.ok none) = none
    ∧ get_by_url (.ok (some r)) = some r
    ∧ get_by_url (.error e) = get_by_url (.ok none)
    ∧ ingestShortCircuit false (get_by_url (.error e))
        = ingestShortCircuit false (get_by_url (.ok none)) :=
  ⟨rfl, rfl, rfl, rfl, rfl⟩

/-! ## `LLMClient` (`llm_client.py`) -/

/-- The mutable state of `LLMClient`: whether each backend client object
was constructed, the configured policy string, and `current_provider`. -/
structure ClientState where
  openai_client : Bool
  groq_client : Bool
  provider : String
  current_provider : Option String
deriving Repr, DecidableEq

/-- `LLMClient.__init__` (lines 11-59), on the normal path where the
backend constructors succeed when a key is supplied: Groq initialisation
sets `current_provider` if still unset, then the policy branch overrides it
(`groq`/`openai` manual selection, or `auto`: OpenAI first if available,
else Groq). -/
def initClient (openaiKey groqKey : Bool) (provider : String) : ClientState :=
  let cur0 : Option String := none
  let cur1 := if groqKey && cur0.isNone then some "groq" else cur0
  let cur2 :=
    if provider == "groq" && groqKey then some "groq"
    else if provider == "openai" && openaiKey then some "openai"
    else if provider == "auto" then
      (if openaiKey then some "openai"
       else if groqKey then some "groq" else cur1)
    else cur1
  { openai_client := openaiKey, groq_client := groqKey,
    provider := provider, current_provider := cur2 }

/-- `LLMClient._groq_completion` (lines 119-147): raises if the Groq client
is missing, otherwise returns the stripped content or re-raises a wrapped
error. `groqRes` is the outcome of the Groq API call. -/
def groqCompletion (st : ClientState) (groqRes : Except String String) :
    Except String String :=
  if !st.groq_client then .error "Groq client not initialized"
  else
    match groqRes with
    | .ok content => .ok content.trim
    | .error e => .error ("Groq completion error: " ++ e)

/-- `LLMClient.chat_completion` (lines 76-117) for non-streaming calls.
`openaiRes`/`groqRes` are the outcomes of the two backend calls; the third
component counts how many times the OpenAI backend was attempted within
this request. On an OpenAI failure with a Groq client configured, the code
sets `current_provider = "groq"` and serves the call from Groq. -/
def chat_completion (st : ClientState) (openaiRes groqRes : Except String String) :
    Except String String × ClientState × Nat :=
  if st.current_provider == some "openai"
      || (st.provider == "auto" && st.openai_client) then
    match openaiRes with
    | .ok content => (.ok content.trim, st, 1)
    | .error _ =>
        if st.groq_client then
          let st1 := { st with current_provider := some "groq" }
          (groqCompletion st1 groqRes, st1, 1)
        else (.error "Both OpenAI and Groq failed", st, 1)
  else if st.current_provider == some "groq" || st.groq_client then
    (groqCompletion st groqRes, st, 0)
  else
    (.error "No LLM provider available. Please configure OpenAI or Groq API keys.",
      st, 0)

/-- `LLMClient.get_provider` (lines 160-162). -/
def get_provider (st : ClientState) : String :=
  st.current_provider.getD "none"

/-- C4: in `auto` mode with both backends configured, `__init__` selects
OpenAI; when the OpenAI call fails and the Groq call succeeds with output
`out`, the completion returns Groq's (stripped) output, `current_provider`
becomes `"groq"`, `get_provider` reports `"groq"`, and OpenAI was attempted
exactly once within the request. -/
theorem auto_fallback_uses_groq (err out : String) :
    (chat_completion (initClient true true "auto") (.error err) (.ok out)).1
        = .ok out.trim
    ∧ (chat_completion (initClient true true "auto")
        (.error err) (.ok out)).2.1.current_provider = some "groq"
    ∧ get_provider
        (chat_completion (initClient true true "auto") (.error err) (.ok out)).2.1
        = "groq"
    ∧ (chat_completion (initClient true true "auto") (.error err) (.ok out)).2.2 = 1
    ∧ (initClient true true "auto").current_provider = some "openai" :=
  ⟨rfl, rfl, rfl, rfl, rfl⟩

/-! ## `SchemaMapper.extract_with_llm` (`schema_mapper.py`, lines 101-153) -/

/-- The whitespace run consumed by a regex `\s*`. -/
def dropWs (l : List Char) : List Char := l.dropWhile (fun c => c.isWhitespace)

theorem dropWs_length_le (l : List Char) : (dropWs l).length ≤ l.length := by
  unfold dropWs
  induction l with
  | nil => simp
  | cons c cs ih =>
      rw [List.dropWhile_cons]
      by_cases h : c.isWhitespace = true
      · rw [if_pos h]
        exact le_trans ih (by simp)
      · rw [if_neg h]

/-- Kernel of `re.sub(r'```json\s*', '', s)` (line 136): delete every
occurrence of the 7-character fence marker and any following whitespace. -/
def stripJsonFences : List Char → List Char
  | [] => []
  | c :: cs =>
      if ("```json".data).isPrefixOf (c :: cs) then
        stripJsonFences (dropWs (cs.drop 6))
      else c :: stripJsonFences cs
termination_by l => l.length
decreasing_by
  · have h1 : (dropWs (cs.drop 6)).length ≤ (cs.drop 6).length :=
      dropWs_length_le _
    have h2 : (cs.drop 6).length ≤ cs.length := by
      rw [List.length_drop]; omega
    simp only [List.length_cons]
    omega
  · simp only [List.length_cons]
    omega

/-- Kernel of `re.sub(r'```\s*', '', s)` (line 137). -/
def stripBackticks : List Char → List Char
  | [] => []
  | c :: cs =>
      if ("```".data).isPrefixOf (c :: cs) then
        stripBackticks (dropWs (cs.drop 2))
      else c :: stripBackticks cs
termination_by l => l.length
decreasing_by
  · have h1 : (dropWs (cs.drop 2)).length ≤ (cs.drop 2).length :=
      dropWs_length_le _
    have h2 : (cs.drop 2).length ≤ cs.length := by
      rw [List.length_drop]; omega
    simp only [List.length_cons]
    omega
  · simp only [List.length_cons]
    omega

/-- Both fence substitutions of lines 136-137, in source order. -/
def stripFence (s : String) : String := ⟨stripBackticks (stripJsonFences s.data)⟩

/-- The error envelope returned by the two `except` arms of
`extract_with_llm` (lines 150 and 153). -/
def errEnvelope (schema_type msg : String) : List (String × Json) :=
  [("@type", .str schema_type), ("@context", .str "https://schema.org"),
   ("error", .str msg)]

/-- `SchemaMapper.extract_with_llm` (lines 101-153). `parse` models
`json.loads` (an external library), `llmRes` the outcome of the single
`chat_completion` call. A backend error yields the error envelope with the
exception text; an unparseable response yields the fixed parse-failure
envelope; a parsed non-dict raises a `TypeError` on the item assignments of
lines 143-144, which the catch-all arm turns into the same envelope shape;
a parsed dict gets `@type`/`@context` overwritten unconditionally. -/
def extract_with_llm (parse : String → Option Json)
    (llmRes : Except String String) (schema_type : String) :
    List (String × Json) :=
  match llmRes with
  | .error e => errEnvelope schema_type e
  | .ok txt =>
      match parse (stripFence txt).trim with
      | none => errEnvelope schema_type "Failed to parse LLM response"
      | some (.obj fields) =>
          setKey (setKey fields "@type" (.str schema_type)) "@context"
            (.str "https://schema.org")
      | some _ => errEnvelope schema_type "item assignment on non-dict"

/-- C7: a backend response that does not parse as JSON (after stripping
code fences) yields an error envelope carrying the requested record type,
the schema.org vocabulary tag and an `error` key, without raising; and on
every outcome — error or success — the returned object carries the
`@type`/`@context` tags, overwritten on successful parses. -/
theorem extract_error_envelope (parse : String → Option Json)
    (schema_type txt : String) (lr : Except String String)
    (hfail : parse (stripFence txt).trim = none) :
    (lookupKey (extract_with_llm parse (.ok txt) schema_type) "@type"
        = some (.str schema_type)
     ∧ lookupKey (extract_with_llm parse (.ok txt) schema_type) "@context"
        = some (.str "https://schema.org")
     ∧ lookupKey (extract_with_llm parse (.ok txt) schema_type) "error"
        = some (.str "Failed to parse LLM response"))
    ∧ (lookupKey (extract_with_llm parse lr schema_type) "@type"
        = some (.str schema_type)
       ∧ lookupKey (extract_with_llm parse lr schema_type) "@context"
        = some (.str "https://schema.org")) := by
  constructor
  · simp only [extract_with_llm, hfail]
    exact ⟨rfl, rfl, rfl⟩
  · cases lr with
    | error e => exact ⟨rfl, rfl⟩
    | ok t =>
        simp only [extract_with_llm]
        cases hp : parse (stripFence t).trim with
        | none => exact ⟨rfl, rfl⟩
        | some j =>
            cases j with
            | null => exact ⟨rfl, rfl⟩
            | bool b => exact ⟨rfl, rfl⟩
            | num n => exact ⟨rfl, rfl⟩
            | str s => exact ⟨rfl, rfl⟩
            | arr xs => exact ⟨rfl, rfl⟩
            | obj fields =>
                constructor
                · rw [lookupKey_setKey_ne _ _ _ _ (by decide)]
                  exact lookupKey_setKey_self _ _ _
                · exact lookupKey_setKey_self _ _ _

/-- Witness for C7: the backend answers `"not json"`, `json.loads` fails,
and the result is the typed parse-failure envelope. -/
theorem extract_error_envelope_witness :
    ((fun _ : String => (none : Option Json)) (stripFence "not json").trim = none)
    ∧ lookupKey (extract_with_llm (fun _ => none) (.ok "not json") "Product")
        "error" = some (.str "Failed to parse LLM response") :=
  ⟨rfl, (extract_error_envelope (fun _ => none) "Product" "not json"
    (.ok "not json") rfl).1.2.2⟩

/-! ## `RAGPipeline` (`rag.py`) -/

mutual
/-- Python `str()` on a `json.loads` value, as rendered by the f-strings of
`format_context` (nested collection rendering idealised). -/
def jsonToStr : Json → String
  | .null => "None"
  | .bool b => if b then "True" else "False"
  | .num n => toString n
  | .str s => s
  | .arr xs => "[" ++ jsonListStr xs ++ "]"
  | .obj fs => "\x7b" ++ jsonObjStr fs ++ "\x7d"

def jsonListStr : List Json → String
  | [] => ""
  | [x] => jsonToStr x
  | x :: xs => jsonToStr x ++ ", " ++ jsonListStr xs

def jsonObjStr : List (String × Json) → String
  | [] => ""
  | [(k, v)] => k ++ ": " ++ jsonToStr v
  | (k, v) :: fs => k ++ ": " ++ jsonToStr v ++ ", " ++ jsonObjStr fs
end

/-- Python truthiness of a `json.loads` value (the `and value` test at
line 59 of `rag.py`). -/
def truthy : Json → Bool
  | .null => false
  | .bool b => b
  | .num n => n != 0
  | .str s => s != ""
  | .arr xs => !xs.isEmpty
  | .obj fs => !fs.isEmpty

/-- One retrieved page as handed to the RAG pipeline by
`StorageManager.search_similar`: the row dict plus `similarity_score`. -/
structure RagItem where
  url : String
  industry : String
  schema_type : String
  metadata : List (String × Json)
  extracted_data : List (String × Json)
  similarity_score : ℚ
deriving Repr

/-- The reserved linked-data keys skipped at line 59 of `rag.py`. -/
def reservedKeys : List String := ["@type", "@context", "@id"]

/-- `metadata.get('title', 'N/A')` as rendered by the f-string (line 51). -/
def metaTitle (item : RagItem) : String :=
  match lookupKey item.metadata "title" with
  | some v => jsonToStr v
  | none => "N/A"

/-- The attribute line `f"  - {key}: {value}\n"` (line 60). -/
def attrLine (k : String) (v : Json) : String :=
  "  - " ++ k ++ ": " ++ jsonToStr v ++ "\n"

/-- The `for key, value in extracted_data.items()` loop (lines 58-60):
emit a line only for non-reserved keys with truthy values. -/
def dataLines : List (String × Json) → String
  | [] => ""
  | (k, v) :: rest =>
      (if !(reservedKeys.contains k) && truthy v then attrLine k v else "")
        ++ dataLines rest

/-- One numbered context block (lines 49-60): header, url, title (from
`metadata`), industry, schema type, then the `Data:` section only when
`extracted_data` is a nonempty dict. -/
def contextItem (i : Nat) (item : RagItem) : String :=
  ("\n[Document " ++ toString i ++ "]\n")
  ++ (("URL: " ++ item.url ++ "\n")
  ++ (("Title: " ++ metaTitle item ++ "\n")
  ++ (("Industry: " ++ item.industry ++ "\n")
  ++ (("Schema Type: " ++ item.schema_type ++ "\n")
  ++ (if item.extracted_data.isEmpty then ""
      else "Data:\n" ++ dataLines item.extracted_data)))))

/-- `enumerate(retrieved_items, 1)` producing the list `context_parts`. -/
def contextParts (i : Nat) : List RagItem → List String
  | [] => []
  | item :: rest => contextItem i item :: contextParts (i + 1) rest

/-- `"\n".join(parts)` (line 64). -/
def joinNl : List String → String
  | [] => ""
  | [x] => x
  | x :: xs => x ++ ("\n" ++ joinNl xs)

/-- `RAGPipeline.format_context` (lines 41-64). -/
def format_context (items : List RagItem) : String :=
  joinNl (contextParts 1 items)

/-- One source descriptor of `query` step 4 (lines 144-153). -/
structure SourceDesc where
  url : String
  title : Option Json
  industry : String
  schema_type : String
  similarity_score : ℚ
deriving Repr

def toSourceDesc (item : RagItem) : SourceDesc :=
  { url := item.url, title := lookupKey item.metadata "title",
    industry := item.industry, schema_type := item.schema_type,
    similarity_score := item.similarity_score }

/-- Count of non-overlapping occurrences of `pat`, for
`len(context.split("[Document"))` (line 106): split count = occurrences + 1. -/
def countOcc (pat : List Char) : List Char → Nat
  | [] => 0
  | c :: cs => (if pat.isPrefixOf (c :: cs) then 1 else 0) + countOcc pat cs

/-- The response dict of `generate_answer`/`query` with all optional keys. -/
structure RagResult where
  answer : String
  query : String
  model : Option String
  sources : Option (List SourceDesc)
  sources_count : Option Nat
  context_length : Option Nat
  error : Option String
deriving Repr

/-- `RAGPipeline.generate_answer` (lines 66-116): one generation call; on
success the answer plus provider name (and, when `include_sources`, a
sources count derived from the context text); on a backend error, an error
answer with the exception text and no provider/model key. -/
def generate_answer (llm : Except String String) (provider : String)
    (q context : String) (include_sources : Bool) : RagResult :=
  match llm with
  | .ok ans =>
      let base : RagResult :=
        { answer := ans, query := q, model := some provider, sources := none,
          sources_count := none, context_length := none, error := none }
      if include_sources then
        { base with
            sources_count := some (countOcc ("[Document".data) context.data + 1),
            context_length := some context.length }
      else base
  | .error e =>
      { answer := "Error generating answer: " ++ e, query := q, model := none,
        sources := none, sources_count := none, context_length := none,
        error := some e }

/-- `RAGPipeline.query` (lines 118-156). `retrieved` is the result of
`retrieve_context`; the second component counts generation-backend calls.
Zero retrieved pages short-circuit before any generation call; otherwise
the context is formatted, one generation call is made, and when
`include_sources` is set one source descriptor per retrieved page is
attached (in retrieval order) and `sources_count` overwritten with the
retrieved-page count. -/
def ragQuery (retrieved : List RagItem) (llm : Except String String)
    (provider : String) (q : String) (include_sources : Bool) :
    RagResult × Nat :=
  if retrieved.isEmpty then
    ({ answer := "No relevant information found in the crawled data.",
       query := q, model := none, sources := some [], sources_count := some 0,
       context_length := none, error := none }, 0)
  else
    let context := format_context retrieved
    let r := generate_answer llm provider q context include_sources
    let r2 :=
      if include_sources then
        { r with sources := some (retrieved.map toSourceDesc),
                 sources_count := some retrieved.length }
      else r
    (r2, 1)

/-- C8: with zero retrieved pages `query` returns the fixed
no-relevant-information answer, empty sources, `sources_count = 0` and
makes no generation call; with a non-empty retrieval and `include_sources`
set, `sources_count` equals the retrieved-page count and exactly one
source descriptor per page is attached in retrieval order. -/
theorem rag_query_spec (llm : Except String String) (provider q : String)
    (inc : Bool) (i : RagItem) (rest : List RagItem) :
    (ragQuery [] llm provider q inc).1.answer
        = "No relevant information found in the crawled data."
    ∧ (ragQuery [] llm provider q inc).1.sources = some []
    ∧ (ragQuery [] llm provider q inc).1.sources_count = some 0
    ∧ (ragQuery [] llm provider q inc).2 = 0
    ∧ (ragQuery (i :: rest) llm provider q true).1.sources_count
        = some (i :: rest).length
    ∧ (ragQuery (i :: rest) llm provider q true).1.sources
        = some ((i :: rest).map toSourceDesc)
    ∧ (ragQuery (i :: rest) llm provider q true).2 = 1 :=
  ⟨rfl, rfl, rfl, rfl, rfl, rfl, rfl⟩

/-! ## Substring containment, used to state what `format_context` renders -/

/-- `pat` occurs as a contiguous substring of the character list. -/
def containsSub (pat : List Char) : List Char → Bool
  | [] => pat.isEmpty
  | c :: cs => pat.isPrefixOf (c :: cs) || containsSub pat cs

/-- `pat` occurs as a contiguous substring of `s` (Python `pat in s`). -/
def containsStr (pat s : String) : Bool := containsSub pat.data s.data

theorem isPrefixOf_extend (p : List Char) :
    ∀ (l r : List Char), p.isPrefixOf l = true → p.isPrefixOf (l ++ r) = true := by
  induction p with
  | nil =>
      intro l r _
      cases l ++ r <;> rfl
  | cons a ps ih =>
      intro l r h
      cases l with
      | nil => simp [List.isPrefixOf] at h
      | cons b ls =>
          simp only [List.isPrefixOf, Bool.and_eq_true] at h
          simp only [List.cons_append, List.isPrefixOf, Bool.and_eq_true]
          exact ⟨h.1, ih ls r h.2⟩

theorem isPrefixOf_self_append (p r : List Char) :
    p.isPrefixOf (p ++ r) = true := by
  induction p with
  | nil => cases r <;> rfl
  | cons a ps ih => simp [List.isPrefixOf, ih]

theorem containsSub_head (p r : List Char) : containsSub p (p ++ r) = true := by
  cases p with
  | nil => cases r <;> simp [containsSub, List.isPrefixOf]
  | cons a ps =>
      simp only [List.cons_append, containsSub, Bool.or_eq_true]
      exact Or.inl (isPrefixOf_self_append (a :: ps) r)

theorem containsSub_append_right (p l r : List Char)
    (h : containsSub p r = true) : containsSub p (l ++ r) = true := by
  induction l with
  | nil => simpa
  | cons c cs ih =>
      simp only [List.cons_append, containsSub, Bool.or_eq_true]
      exact Or.inr ih

theorem containsSub_append_left (p l r : List Char)
    (h : containsSub p l = true) : containsSub p (l ++ r) = true := by
  induction l with
  | nil =>
      have hp : p = [] := by
        cases p with
        | nil => rfl
        | cons a ps => simp [containsSub, List.isEmpty] at h
      subst hp
      cases r <;> simp [containsSub, List.isPrefixOf]
  | cons c cs ih =>
      simp only [containsSub, Bool.or_eq_true] at h
      simp only [List.cons_append, containsSub, Bool.or_eq_true]
      rcases h with h | h
      · exact Or.inl (by
          have := isPrefixOf_extend p (c :: cs) r h
          simpa using this)
      · exact Or.inr (ih h)

theorem containsSub_middle (p l r : List Char) :
    containsSub p (l ++ (p ++ r)) = true :=
  containsSub_append_right p l (p ++ r) (containsSub_head p r)

theorem strData_append (a b : String) : (a ++ b).data = a.data ++ b.data := rfl

theorem containsStr_head (p r : String) : containsStr p (p ++ r) = true := by
  unfold containsStr
  rw [strData_append]
  exact containsSub_head _ _

theorem containsStr_append_left (p a b : String)
    (h : containsStr p a = true) : containsStr p (a ++ b) = true := by
  unfold containsStr at h ⊢
  rw [strData_append]
  exact containsSub_append_left _ _ _ h

theorem containsStr_append_right (p a b : String)
    (h : containsStr p b = true) : containsStr p (a ++ b) = true := by
  unfold containsStr at h ⊢
  rw [strData_append]
  exact containsSub_append_right _ _ _ h

theorem containsStr_middle (p l r : String) :
    containsStr p (l ++ (p ++ r)) = true := by
  unfold containsStr
  rw [strData_append, strData_append]
  exact containsSub_middle _ _ _

theorem containsStr_joinNl (p : String) (parts : List String) (x : String)
    (hx : x ∈ parts) (h : containsStr p x = true) :
    containsStr p (joinNl parts) = true := by
  induction parts with
  | nil => cases hx
  | cons y ys ih =>
      rcases List.mem_cons.mp hx with heq | hmem
      · subst heq
        cases ys with
        | nil => exact h
        | cons z zs => exact containsStr_append_left _ _ _ h
      · cases ys with
        | nil => cases hmem
        | cons z zs =>
            exact containsStr_append_right _ _ _
              (containsStr_append_right _ _ _ (ih hmem))

theorem dataLines_contains (fs : List (String × Json)) (k : String) (v : Json)
    (hmem : (k, v) ∈ fs) (hk : reservedKeys.contains k = false)
    (hv : truthy v = true) :
    containsStr (attrLine k v) (dataLines fs) = true := by
  induction fs with
  | nil => cases hmem
  | cons hd rest ih =>
      obtain ⟨k0, v0⟩ := hd
      rcases List.mem_cons.mp hmem with heq | hmem2
      · obtain ⟨hk0, hv0⟩ := Prod.mk.injEq .. ▸ heq
        subst hk0; subst hv0
        have hcond : (!(reservedKeys.contains k) && truthy v) = true := by
          rw [hk, hv]; rfl
        simp only [dataLines, hcond, if_true]
        exact containsStr_head _ _
      · simp only [dataLines]
        exact containsStr_append_right _ _ _ (ih hmem2)

theorem contextItem_mem_contextParts (pre post : List RagItem) (item : RagItem) :
    ∀ n : Nat, contextItem (n + pre.length) item
      ∈ contextParts n (pre ++ item :: post) := by
  induction pre with
  | nil =>
      intro n
      simp [contextParts]
  | cons p ps ih =>
      intro n
      have h := ih (n + 1)
      simp only [List.cons_append, contextParts]
      have harith : n + (p :: ps).length = (n + 1) + ps.length := by
        simp only [List.length_cons]; omega
      rw [harith]
      exact List.mem_cons_of_mem _ h

/-- C9 (amended): `format_context` renders, inside the numbered block of
each retrieved page (at its 1-based retrieval position), the url, title,
industry and record type, and a `  - key: value` line for every
non-reserved attribute whose value is truthy; attributes with falsy values
(empty string, 0, None, False, empty collection) are omitted — see the
counterexample below for why the truthiness restriction is necessary. -/
theorem format_context_renders (pre post : List RagItem) (item : RagItem)
    (k : String) (v : Json) (hmem : (k, v) ∈ item.extracted_data)
    (hk : reservedKeys.contains k = false) (hv : truthy v = true) :
    containsStr ("\n[Document " ++ toString (pre.length + 1) ++ "]\n")
      (format_context (pre ++ item :: post)) = true
    ∧ containsStr ("URL: " ++ item.url ++ "\n")
      (format_context (pre ++ item :: post)) = true
    ∧ containsStr ("Title: " ++ metaTitle item ++ "\n")
      (format_context (pre ++ item :: post)) = true
    ∧ containsStr ("Industry: " ++ item.industry ++ "\n")
      (format_context (pre ++ item :: post)) = true
    ∧ containsStr ("Schema Type: " ++ item.schema_type ++ "\n")
      (format_context (pre ++ item :: post)) = true
    ∧ containsStr (attrLine k v) (format_context (pre ++ item :: post)) = true := by
  have hblock : contextItem (pre.length + 1) item
      ∈ contextParts 1 (pre ++ item :: post) := by
    have h := contextItem_mem_contextParts pre post item 1
    rwa [Nat.add_comm] at h
  have lift : ∀ p : String,
      containsStr p (contextItem (pre.length + 1) item) = true →
      containsStr p (format_context (pre ++ item :: post)) = true := by
    intro p hp
    unfold format_context
    exact containsStr_joinNl p _ _ hblock hp
  have hne : item.extracted_data.isEmpty = false := by
    cases hital : item.extracted_data with
    | nil => rw [hital] at hmem; cases hmem
    | cons a as => rfl
  refine ⟨lift _ ?_, lift _ ?_, lift _ ?_, lift _ ?_, lift _ ?_, lift _ ?_⟩
  · exact containsStr_head _ _
  · exact containsStr_middle _ _ _
  · exact containsStr_append_right _ _ _ (containsStr_middle _ _ _)
  · exact containsStr_append_right _ _ _
      (containsStr_append_right _ _ _ (containsStr_middle _ _ _))
  · exact containsStr_append_right _ _ _ (containsStr_append_right _ _ _
      (containsStr_append_right _ _ _ (containsStr_middle _ _ _)))
  · unfold contextItem
    rw [hne]
    simp only [Bool.false_eq_true, if_false]
    refine containsStr_append_right _ _ _ (containsStr_append_right _ _ _
      (containsStr_append_right _ _ _ (containsStr_append_right _ _ _
        (containsStr_append_right _ _ _
          (containsStr_append_right _ _ _ ?_)))))
    exact dataLines_contains _ _ _ hmem hk hv

/-- Witness for C9 (amended) on a one-page retrieval with one truthy
attribute. -/
theorem format_context_renders_witness :
    (("name", Json.str "Gold Card")
        ∈ (RagItem.mk "u" "banking" "Product" [] [("name", Json.str "Gold Card")] 0).extracted_data)
    ∧ reservedKeys.contains "name" = false
    ∧ truthy (Json.str "Gold Card") = true
    ∧ containsStr (attrLine "name" (Json.str "Gold Card"))
        (format_context [RagItem.mk "u" "banking" "Product" []
          [("name", Json.str "Gold Card")] 0]) = true :=
  ⟨List.mem_cons_self _ _, by decide, by decide,
   (format_context_renders [] [] _ "name" (Json.str "Gold Card")
     (List.mem_cons_self _ _) (by decide) (by decide)).2.2.2.2.2⟩

/-- The C9 counterexample page: one non-reserved attribute whose value is
the falsy empty string. -/
def cexItem : RagItem :=
  { url := "u", industry := "gen", schema_type := "T", metadata := [],
    extracted_data := [("price", Json.str "")], similarity_score := 0 }

/-- C9 counterexample: `"price"` is a non-reserved attribute key of the
page, yet the rendered context does not even contain the substring
`"price"` — the code drops attributes with falsy values, so the claim's
"every non-reserved attribute key/value pair" fails as stated. -/
theorem format_context_omits_falsy :
    (("price", Json.str "") ∈ cexItem.extracted_data)
    ∧ reservedKeys.contains "price" = false
    ∧ containsStr "price" (format_context [cexItem]) = false := by
  refine ⟨List.mem_cons_self _ _, by decide, ?_⟩
  decide
